import Mathlib

/-!
Shallow embedding of the question-rotation and attempt/analytics core of
`server/server.js`: the SQLite tables become lists, each HTTP handler becomes a
pure function from the database state (plus request data) to the new state and
a response.  `ORDER BY RANDOM()` is modelled by an explicit shuffle parameter;
theorems quantify over all shuffles that are permutations.
-/

namespace Interview

/-- A row of the `questions` table. -/
structure Question where
  id : Nat
  topic : String
  text : String
  difficulty : String
deriving DecidableEq, Repr

/-- A row of the `interview_attempts` table.  Columns that may be SQL `NULL`
are `Option`; `attempt_date` is an abstract timestamp. -/
structure AttemptRow where
  id : Nat
  user_id : Nat
  topic : String
  score : Option Rat
  total_questions : Option Rat
  correct_answers : Option Rat
  duration_minutes : Option Rat
  confidence_score : Option Rat
  facial_expression_score : Option Rat
  attempt_date : Nat
deriving DecidableEq, Repr

/-- The database state: `questions`, `question_usage` (rows `(user_id,
question_id)`) and `interview_attempts`.  The `users` table belongs to the
excluded auth collaborator and is not needed. -/
structure Db where
  questions : List Question
  question_usage : List (Nat × Nat)
  attempts : List AttemptRow
deriving DecidableEq, Repr

/-- Error responses of the handlers: a 400 validation error with its message,
or the generic 500 `Database error`. -/
inductive ApiError where
  | validation (msg : String)
  | database
deriving DecidableEq, Repr

/-- Is the response a 400 validation error? -/
def isValidationError {α : Type} : Except ApiError α → Bool
  | Except.error (ApiError.validation _) => true
  | _ => false

/-- Numeric value of a list of decimal digit characters. -/
def digitsVal (ds : List Char) : Nat :=
  ds.foldl (fun acc c => acc * 10 + (c.toNat - 48)) 0

/-- JavaScript `parseInt` restricted to base 10: skip leading whitespace, an
optional sign, then the maximal run of leading digits; `none` models `NaN`
(no digits). -/
def jsParseInt (s : String) : Option Int :=
  let cs := s.toList.dropWhile
    (fun c => c == ' ' || c == '\t' || c == '\n' || c == '\r')
  match cs with
  | '-' :: rest =>
      let ds := rest.takeWhile Char.isDigit
      if ds.isEmpty then none else some (-(digitsVal ds : Int))
  | '+' :: rest =>
      let ds := rest.takeWhile Char.isDigit
      if ds.isEmpty then none else some (digitsVal ds : Int)
  | _ =>
      let ds := cs.takeWhile Char.isDigit
      if ds.isEmpty then none else some (digitsVal ds : Int)

/-- `const { count = 5 } = req.query` followed by `parseInt(count)`: an absent
query parameter defaults to 5, a present one is parsed; `none` models `NaN`. -/
def countLimit : Option String → Option Int
  | none => some 5
  | some s => jsParseInt s

/-- Does a list of usage rows hold the row `(userId, qid)`? -/
def usageHas (rows : List (Nat × Nat)) (userId qid : Nat) : Bool :=
  rows.any (fun p => p.1 == userId && p.2 == qid)

/-- Does `question_usage` hold a row `(userId, qid)`?  (The `NOT IN` /
`JOIN` subqueries of the handler test exactly this.) -/
def isUsedBy (db : Db) (userId qid : Nat) : Bool :=
  usageHas db.question_usage userId qid

/-- `SELECT COUNT(DISTINCT q.id) FROM questions q JOIN question_usage qu ON
q.id = qu.question_id WHERE q.topic = ? AND qu.user_id = ?`. -/
def usedCount (db : Db) (userId : Nat) (topic : String) : Nat :=
  (((db.questions.filter
      (fun q => q.topic == topic && isUsedBy db userId q.id)).map
        Question.id).dedup).length

/-- `SELECT COUNT(*) as total FROM questions WHERE topic = ?`. -/
def totalQuestions (db : Db) (topic : String) : Nat :=
  (db.questions.filter (fun q => q.topic == topic)).length

/-- `SELECT id FROM questions WHERE topic = ?` (the reset's subquery). -/
def topicIds (db : Db) (topic : String) : List Nat :=
  (db.questions.filter (fun q => q.topic == topic)).map Question.id

/-- `DELETE FROM question_usage WHERE user_id = ? AND question_id IN
(SELECT id FROM questions WHERE topic = ?)`. -/
def resetUsage (db : Db) (userId : Nat) (topic : String) : Db :=
  { db with question_usage :=
      (db.question_usage.filter
        (fun p => !(p.1 == userId && (topicIds db topic).contains p.2))) }

/-- The questions eligible for the draw: `WHERE q.topic = ? AND q.id NOT IN
(SELECT qu.question_id FROM question_usage qu WHERE qu.user_id = ?)`. -/
def eligibleQuestions (db : Db) (userId : Nat) (topic : String) : List Question :=
  db.questions.filter (fun q => q.topic == topic && !(isUsedBy db userId q.id))

/-- `INSERT INTO question_usage (user_id, question_id) VALUES (?, ?)` for each
drawn question (the `insertUsage.run` loop). -/
def markUsed (db : Db) (userId : Nat) (qs : List Question) : Db :=
  { db with question_usage :=
      (db.question_usage ++ qs.map (fun q => (userId, q.id))) }

/-- SQLite `LIMIT n` on an integer `n`: a negative limit means no limit. -/
def sqlLimit (n : Int) (l : List Question) : List Question :=
  if n < 0 then l else l.take n.toNat

/-- The conditional reset: `if (usedCount >= totalQuestions)` delete the
user's usage rows for the topic, else leave the state unchanged. -/
def afterResetCheck (db : Db) (userId : Nat) (topic : String) : Db :=
  if totalQuestions db topic ≤ usedCount db userId topic then
    resetUsage db userId topic
  else db

/-- The `GET /api/questions/:topic` handler.  `sh` stands for `ORDER BY
RANDOM()` (theorems assume it permutes its input).  When `parseInt(count)` is
`NaN` the bound parameter becomes SQL `NULL` (SQLite stores NaN doubles as
NULL) and `LIMIT NULL` fails with a datatype mismatch, so the draw query
errors out after the reset already ran: the handler answers 500. -/
def getQuestions (sh : List Question → List Question) (db : Db) (userId : Nat)
    (topic : String) (count : Option String) :
    Db × Except ApiError (List Question) :=
  let db1 := afterResetCheck db userId topic
  match countLimit count with
  | none => (db1, Except.error ApiError.database)
  | some n =>
      let sel := sqlLimit n (sh (eligibleQuestions db1 userId topic))
      (markUsed db1 userId sel, Except.ok sel)

/-- A JavaScript request-body field: `undefined`, `null`, or a value. -/
inductive JsVal (α : Type) where
  | undef
  | null
  | val (a : α)
deriving DecidableEq, Repr

/-- JS falsiness of a string-valued field: `undefined`, `null` and `""` are
falsy. -/
def jsFalsyStr : JsVal String → Bool
  | JsVal.undef => true
  | JsVal.null => true
  | JsVal.val s => s == ""

/-- JS falsiness of a number-valued field: `undefined`, `null` and `0` are
falsy.  (`NaN` is also falsy in JS but has no `Rat` representative and is
irrelevant to the handler's inputs here.) -/
def jsFalsyNum : JsVal Rat → Bool
  | JsVal.undef => true
  | JsVal.null => true
  | JsVal.val x => x == 0

/-- `=== undefined`. -/
def isUndef {α : Type} : JsVal α → Bool
  | JsVal.undef => true
  | _ => false

/-- The value bound into the `INSERT`: `undefined` and `null` both bind SQL
`NULL`. -/
def toStored {α : Type} : JsVal α → Option α
  | JsVal.val a => some a
  | _ => none

/-- The JSON body of `POST /api/attempts`. -/
structure AttemptBody where
  topic : JsVal String
  score : JsVal Rat
  totalQuestions : JsVal Rat
  correctAnswers : JsVal Rat
  durationMinutes : JsVal Rat
  confidenceScore : JsVal Rat
  facialExpressionScore : JsVal Rat
deriving DecidableEq, Repr

/-- `if (!topic || score === undefined || !totalQuestions ||
correctAnswers === undefined)`. -/
def missingRequired (b : AttemptBody) : Bool :=
  jsFalsyStr b.topic || isUndef b.score || jsFalsyNum b.totalQuestions ||
    isUndef b.correctAnswers

/-- The success payload `{ id, message }` of the attempt submission. -/
structure PostResp where
  id : Nat
  message : String
deriving DecidableEq, Repr

/-- The `POST /api/attempts` handler: validate, then `INSERT INTO
interview_attempts ...`.  `now` is the `attempt_date` the database assigns;
the fresh `id` models `AUTOINCREMENT` / `lastID`. -/
def postAttempt (db : Db) (userId : Nat) (b : AttemptBody) (now : Nat) :
    Db × Except ApiError PostResp :=
  if missingRequired b then
    (db, Except.error (ApiError.validation "Missing required fields"))
  else
    let row : AttemptRow :=
      { id := db.attempts.length + 1
        user_id := userId
        topic := match b.topic with | JsVal.val s => s | _ => ""
        score := toStored b.score
        total_questions := toStored b.totalQuestions
        correct_answers := toStored b.correctAnswers
        duration_minutes := toStored b.durationMinutes
        confidence_score := toStored b.confidenceScore
        facial_expression_score := toStored b.facialExpressionScore
        attempt_date := now }
    ({ db with attempts := db.attempts ++ [row] },
      Except.ok { id := row.id, message := "Attempt saved successfully" })

/-- `WHERE user_id = ?`: the rows of one user, in table order. -/
def userAttempts (db : Db) (userId : Nat) : List AttemptRow :=
  db.attempts.filter (fun a => a.user_id == userId)

/-- `ORDER BY attempt_date DESC` (tie order is unspecified by SQL; a stable
insertion sort realises one valid order). -/
def sortByDateDesc (l : List AttemptRow) : List AttemptRow :=
  l.insertionSort (fun a b => b.attempt_date ≤ a.attempt_date)

/-- The `GET /api/attempts` handler. -/
def listAttempts (db : Db) (userId : Nat) : List AttemptRow :=
  sortByDateDesc (userAttempts db userId)

/-- The non-`NULL` entries of a column, in row order (SQL aggregates skip
`NULL`s). -/
def someVals (l : List (Option Rat)) : List Rat :=
  l.filterMap id

/-- SQL `AVG`: `NULL` on an empty (or all-`NULL`) column. -/
def sqlAvg (l : List (Option Rat)) : Option Rat :=
  let vs := someVals l
  if vs.isEmpty then none else some (vs.sum / vs.length)

/-- SQL `MAX`: `NULL` on an empty (or all-`NULL`) column. -/
def sqlMax (l : List (Option Rat)) : Option Rat :=
  (someVals l).max?

/-- SQL `MIN`: `NULL` on an empty (or all-`NULL`) column. -/
def sqlMin (l : List (Option Rat)) : Option Rat :=
  (someVals l).min?

/-- The `overall` row of `GET /api/analytics`. -/
structure OverallStats where
  total_attempts : Nat
  average_score : Option Rat
  best_score : Option Rat
  worst_score : Option Rat
  avg_duration : Option Rat
deriving DecidableEq, Repr

/-- The overall-statistics query (`COUNT`, `AVG`, `MAX`, `MIN` over the
user's attempts). -/
def overallStats (db : Db) (userId : Nat) : OverallStats :=
  let rows := userAttempts db userId
  { total_attempts := rows.length
    average_score := sqlAvg (rows.map AttemptRow.score)
    best_score := sqlMax (rows.map AttemptRow.score)
    worst_score := sqlMin (rows.map AttemptRow.score)
    avg_duration := sqlAvg (rows.map AttemptRow.duration_minutes) }

/-- One row of the per-topic statistics. -/
structure TopicStats where
  topic : String
  attempts : Nat
  avg_score : Option Rat
  best_score : Option Rat
  worst_score : Option Rat
deriving DecidableEq, Repr

/-- The `GROUP BY topic` query: one row per distinct topic of the user's
attempts (group order is unspecified by SQL; first appearance is used). -/
def perTopic (db : Db) (userId : Nat) : List TopicStats :=
  let rows := userAttempts db userId
  ((rows.map AttemptRow.topic).dedup).map (fun t =>
    let tr := rows.filter (fun a => a.topic == t)
    { topic := t
      attempts := tr.length
      avg_score := sqlAvg (tr.map AttemptRow.score)
      best_score := sqlMax (tr.map AttemptRow.score)
      worst_score := sqlMin (tr.map AttemptRow.score) })

/-- One row of the recent-trend projection. -/
structure TrendRow where
  score : Option Rat
  attempt_date : Nat
  topic : String
  confidence_score : Option Rat
  facial_expression_score : Option Rat
deriving DecidableEq, Repr

/-- The recent-attempts query: newest 20, projected to five columns. -/
def recentTrend (db : Db) (userId : Nat) : List TrendRow :=
  ((listAttempts db userId).take 20).map (fun a =>
    { score := a.score
      attempt_date := a.attempt_date
      topic := a.topic
      confidence_score := a.confidence_score
      facial_expression_score := a.facial_expression_score })

/-- The full `GET /api/analytics` response. -/
structure Analytics where
  overall : OverallStats
  topicStats : List TopicStats
  recentAttempts : List TrendRow
deriving DecidableEq, Repr

/-- The `GET /api/analytics` handler. -/
def getAnalytics (db : Db) (userId : Nat) : Analytics :=
  { overall := overallStats db userId
    topicStats := perTopic db userId
    recentAttempts := recentTrend db userId }

/-- One draw request: caller, topic, `count` query parameter and the shuffle
realised by `ORDER BY RANDOM()` on that request. -/
structure DrawReq where
  userId : Nat
  topic : String
  count : Option String
  sh : List Question → List Question

/-- Run a sequence of draw requests, threading the database state. -/
def runRequests (db : Db) : List DrawReq → Db
  | [] => db
  | r :: rs => runRequests (getQuestions r.sh db r.userId r.topic r.count).1 rs

/-- `n` sequential single-question draws (`count=1`) by one user on one
topic; `sh k` is the shuffle of the `k`-th draw.  Returns the final state and
the list of per-draw results. -/
def runDraws (sh : Nat → List Question → List Question) (u : Nat) (t : String) :
    Nat → Db → Db × List (List Question)
  | 0, db => (db, [])
  | n + 1, db =>
      let p := runDraws sh u t n db
      let q := getQuestions (sh n) p.1 u t (some "1")
      (q.1, p.2 ++ [q.2.toOption.getD []])

/-! Concrete fixtures used by the witness and counterexample theorems. -/

/-- Catalog question 1 of topic `t`. -/
def qA : Question := { id := 1, topic := "t", text := "a", difficulty := "beginner" }

/-- Catalog question 2 of topic `t`. -/
def qB : Question := { id := 2, topic := "t", text := "b", difficulty := "beginner" }

/-- Catalog question of another topic `u`. -/
def qC : Question := { id := 3, topic := "u", text := "c", difficulty := "beginner" }

/-- Three questions, nobody has drawn anything. -/
def dbFresh : Db := { questions := [qA, qB, qC], question_usage := [], attempts := [] }

/-- User 1 is mid-cycle on topic `t`: one of two questions used. -/
def dbMid : Db := { questions := [qA, qB, qC], question_usage := [(1, 1)], attempts := [] }

/-- User 1 has exhausted topic `t` (both questions used). -/
def dbUsedAll : Db :=
  { questions := [qA, qB, qC], question_usage := [(1, 1), (1, 2)], attempts := [] }

/-- A fully valid attempt submission (with `correctAnswers = 0`). -/
def bodyOk : AttemptBody :=
  { topic := JsVal.val "js", score := JsVal.val 80, totalQuestions := JsVal.val 5,
    correctAnswers := JsVal.val 0, durationMinutes := JsVal.undef,
    confidenceScore := JsVal.undef, facialExpressionScore := JsVal.undef }

/-- An attempt row belonging to user 2. -/
def rowU2 : AttemptRow :=
  { id := 1, user_id := 2, topic := "js", score := some 80, total_questions := some 5,
    correct_answers := some 4, duration_minutes := none, confidence_score := none,
    facial_expression_score := none, attempt_date := 10 }

/-- An attempt row belonging to user 1. -/
def rowU1 : AttemptRow :=
  { id := 2, user_id := 1, topic := "js", score := some 60, total_questions := some 5,
    correct_answers := some 3, duration_minutes := some 12, confidence_score := none,
    facial_expression_score := none, attempt_date := 20 }

/-- A ledger holding only user 2's attempt. -/
def dbOnlyU2 : Db := { questions := [], question_usage := [], attempts := [rowU2] }

/-- A ledger holding attempts of users 1 and 2. -/
def dbBothUsers : Db := { questions := [], question_usage := [], attempts := [rowU1, rowU2] }

/-- Usage rows of user 1 on both topics and of user 2, for the reset frame
witness. -/
def dbMixed : Db :=
  { questions := [qA, qB, qC], question_usage := [(1, 1), (2, 1), (1, 3)], attempts := [] }

/-- Two concrete draw requests (identity shuffles) for the uniqueness witness. -/
def reqsW : List DrawReq :=
  [{ userId := 1, topic := "t", count := some "1", sh := fun l => l },
   { userId := 1, topic := "t", count := some "5", sh := fun l => l }]

/-! ### Helper lemmas -/

lemma usageHas_iff {rows : List (Nat × Nat)} {u qid : Nat} :
    usageHas rows u qid = true ↔ (u, qid) ∈ rows := by
  simp only [usageHas, List.any_eq_true, beq_iff_eq, Bool.and_eq_true]
  constructor
  · rintro ⟨⟨a, b⟩, hp, h1, h2⟩
    simp only at h1 h2
    subst h1; subst h2; exact hp
  · intro h; exact ⟨(u, qid), h, rfl, rfl⟩

lemma usageHas_append {r1 r2 : List (Nat × Nat)} {u qid : Nat} :
    usageHas (r1 ++ r2) u qid = (usageHas r1 u qid || usageHas r2 u qid) :=
  List.any_append

lemma usageHas_pairs_iff {ds : List Question} {u qid : Nat} :
    usageHas (ds.map (fun q => (u, q.id))) u qid = true ↔ qid ∈ ds.map Question.id := by
  rw [usageHas_iff]
  simp only [List.mem_map]
  constructor
  · rintro ⟨q, hq, hpair⟩
    exact ⟨q, hq, (Prod.mk.injEq _ _ _ _ ▸ hpair).2⟩
  · rintro ⟨q, hq, hid⟩
    exact ⟨q, hq, by rw [hid]⟩

lemma resetUsage_questions (db : Db) (u : Nat) (t : String) :
    (resetUsage db u t).questions = db.questions := rfl

lemma markUsed_questions (db : Db) (u : Nat) (qs : List Question) :
    (markUsed db u qs).questions = db.questions := rfl

lemma afterResetCheck_questions (db : Db) (u : Nat) (t : String) :
    (afterResetCheck db u t).questions = db.questions := by
  unfold afterResetCheck; split <;> rfl

lemma getQuestions_questions (sh : List Question → List Question) (db : Db)
    (u : Nat) (t : String) (c : Option String) :
    ((getQuestions sh db u t c).1).questions = db.questions := by
  unfold getQuestions
  cases countLimit c <;> simp [markUsed_questions, afterResetCheck_questions]

lemma missingRequired_iff (b : AttemptBody) :
    missingRequired b = true ↔
      (b.topic = JsVal.undef ∨ b.topic = JsVal.null ∨ b.topic = JsVal.val "" ∨
       b.score = JsVal.undef ∨ b.totalQuestions = JsVal.undef ∨
       b.totalQuestions = JsVal.null ∨ b.totalQuestions = JsVal.val 0 ∨
       b.correctAnswers = JsVal.undef) := by
  rcases b with ⟨topic, score, tq, ca, d, c, f⟩
  unfold missingRequired jsFalsyStr jsFalsyNum isUndef
  cases topic <;> cases score <;> cases tq <;> cases ca <;>
    simp [beq_iff_eq]

lemma userAttempts_eq_nil {db : Db} {u : Nat}
    (h : ∀ a ∈ db.attempts, a.user_id ≠ u) : userAttempts db u = [] := by
  simp only [userAttempts, List.filter_eq_nil_iff, beq_iff_eq]
  exact h

/-- Claim C7: a user with zero stored attempts receives an overall attempt count
of `0` and explicit `NULL` (not `0`, not `NaN`) for the mean, max and min of
`score` and the mean of `durationMinutes`, together with empty per-topic and
recent-trend components. -/
theorem analytics_no_data (db : Db) (u : Nat)
    (h : ∀ a ∈ db.attempts, a.user_id ≠ u) :
    getAnalytics db u =
      { overall := { total_attempts := 0, average_score := none, best_score := none,
                     worst_score := none, avg_duration := none },
        topicStats := [], recentAttempts := [] } := by
  have h0 := userAttempts_eq_nil h
  simp [getAnalytics, overallStats, perTopic, recentTrend, listAttempts, sortByDateDesc,
    sqlAvg, sqlMax, sqlMin, someVals, h0]

/-- Witness for `analytics_no_data`: user 1 on a ledger holding only an attempt
of user 2. -/
theorem analytics_no_data_witness :
    getAnalytics dbOnlyU2 1 =
      { overall := { total_attempts := 0, average_score := none, best_score := none,
                     worst_score := none, avg_duration := none },
        topicStats := [], recentAttempts := [] } :=
  analytics_no_data dbOnlyU2 1 (by decide)

/-- Claim C6 counterexample: a submission whose `correctAnswers` is `null`
(present and null, so the claim demands rejection) is accepted by the code,
because the check compares `correctAnswers` against `undefined` only. -/
theorem attempt_validation_counterexample :
    isValidationError
        (postAttempt dbFresh 1 { bodyOk with correctAnswers := JsVal.null } 0).2 = false ∧
    (postAttempt dbFresh 1 { bodyOk with correctAnswers := JsVal.null } 0).2 =
      Except.ok { id := 1, message := "Attempt saved successfully" } :=
  ⟨by decide, by rfl⟩

/-- Claim C6 (amended): `append` rejects with the validation error, before
writing anything, exactly when `topic` is absent, `null` or `""`, or `score` is
absent, or `totalQuestions` is absent, `null` or `0`, or `correctAnswers` is
absent (`null` `score` and `correctAnswers` pass the check); an accepted
submission with `correctAnswers = 0` is stored with `correct_answers = 0`. -/
theorem attempt_validation_amended (db : Db) (u : Nat) (b : AttemptBody) (now : Nat) :
    (isValidationError (postAttempt db u b now).2 = true ↔
      (b.topic = JsVal.undef ∨ b.topic = JsVal.null ∨ b.topic = JsVal.val "" ∨
       b.score = JsVal.undef ∨ b.totalQuestions = JsVal.undef ∨
       b.totalQuestions = JsVal.null ∨ b.totalQuestions = JsVal.val 0 ∨
       b.correctAnswers = JsVal.undef)) ∧
    (isValidationError (postAttempt db u b now).2 = true →
      (postAttempt db u b now).1 = db) ∧
    (isValidationError (postAttempt db u b now).2 = false →
      b.correctAnswers = JsVal.val 0 →
      ∃ row, (postAttempt db u b now).1.attempts = db.attempts ++ [row] ∧
        row.correct_answers = some 0) := by
  refine ⟨?_, ?_, ?_⟩
  · rw [← missingRequired_iff]
    by_cases h : missingRequired b <;>
      simp [postAttempt, h, isValidationError]
  · intro hval
    by_cases h : missingRequired b
    · simp [postAttempt, h]
    · simp [postAttempt, h, isValidationError] at hval
  · intro hok hca
    by_cases h : missingRequired b
    · simp [postAttempt, h, isValidationError] at hok
    · unfold postAttempt
      rw [if_neg h]
      exact ⟨_, rfl, by simp [hca, toStored]⟩

/-- Witness for `attempt_validation_amended`: the valid `bodyOk` submission with
`correctAnswers = 0` is stored with `correct_answers = 0`. -/
theorem attempt_validation_amended_witness :
    ∃ row, (postAttempt dbFresh 1 bodyOk 0).1.attempts = dbFresh.attempts ++ [row] ∧
      row.correct_answers = some 0 :=
  (attempt_validation_amended dbFresh 1 bodyOk 0).2.2 (by decide) rfl

/-- Claim C10: the required-field check rejects any falsy `totalQuestions`
(including the present value `0`) and any falsy `topic` (including `""`) as
missing, while `score` and `correctAnswers` are compared against `undefined`
only, so `null` values for them pass validation. -/
theorem falsy_rejection (db : Db) (u : Nat) (b : AttemptBody) (now : Nat) :
    (b.totalQuestions = JsVal.val 0 →
      (postAttempt db u b now).2 =
        Except.error (ApiError.validation "Missing required fields")) ∧
    (b.topic = JsVal.val "" →
      (postAttempt db u b now).2 =
        Except.error (ApiError.validation "Missing required fields")) ∧
    (b.score = JsVal.null → b.correctAnswers = JsVal.null →
      jsFalsyStr b.topic = false → jsFalsyNum b.totalQuestions = false →
      isValidationError (postAttempt db u b now).2 = false) := by
  refine ⟨?_, ?_, ?_⟩
  · intro h
    have hm : missingRequired b = true := by
      simp [missingRequired, h, jsFalsyNum]
    simp [postAttempt, hm]
  · intro h
    have hm : missingRequired b = true := by
      simp [missingRequired, h, jsFalsyStr]
    simp [postAttempt, hm]
  · intro hs hca ht htq
    have hm : missingRequired b = false := by
      simp [missingRequired, ht, htq, hs, hca, isUndef]
    simp [postAttempt, hm, isValidationError]

lemma totalQuestions_afterResetCheck (db : Db) (u : Nat) (t t' : String) :
    totalQuestions (afterResetCheck db u t) t' = totalQuestions db t' := by
  unfold totalQuestions
  rw [afterResetCheck_questions]

lemma eligible_eq_filter (db : Db) (u : Nat) (t : String) :
    eligibleQuestions db u t =
      (db.questions.filter (fun q => q.topic == t)).filter
        (fun q => !(isUsedBy db u q.id)) := by
  rw [List.filter_filter]
  exact List.filter_congr (fun q _ => (Bool.and_comm _ _))

lemma eligible_length_le (db : Db) (u : Nat) (t : String) :
    (eligibleQuestions db u t).length ≤ totalQuestions db t := by
  rw [eligible_eq_filter]
  exact List.length_filter_le _ _

lemma eligible_map_id_nodup {db : Db} (u : Nat) (t : String)
    (hnd : (db.questions.map Question.id).Nodup) :
    ((eligibleQuestions db u t).map Question.id).Nodup :=
  (List.Sublist.map Question.id (List.filter_sublist _)).nodup hnd

lemma usedCount_eq_zero_all_unused {db : Db} {u : Nat} {t : String}
    (h : usedCount db u t = 0) :
    ∀ q ∈ db.questions, q.topic = t → isUsedBy db u q.id = false := by
  unfold usedCount at h
  rw [List.length_eq_zero, List.dedup_eq_nil, List.map_eq_nil_iff,
    List.filter_eq_nil_iff] at h
  intro q hq ht
  have := h q hq
  simp only [ht, beq_self_eq_true, Bool.true_and, Bool.not_eq_true] at this
  exact this

lemma eligible_of_usedCount_zero {db : Db} {u : Nat} {t : String}
    (h : usedCount db u t = 0) :
    eligibleQuestions db u t = db.questions.filter (fun q => q.topic == t) := by
  unfold eligibleQuestions
  apply List.filter_congr
  intro q hq
  cases ht : (q.topic == t) with
  | false => simp
  | true =>
    simp only [Bool.true_and]
    rw [usedCount_eq_zero_all_unused h q hq (by simpa using ht)]
    rfl

lemma isUsedBy_resetUsage_of_mem_topicIds {db : Db} {u : Nat} {t : String}
    {qid : Nat} (h : qid ∈ topicIds db t) :
    isUsedBy (resetUsage db u t) u qid = false := by
  cases hb : isUsedBy (resetUsage db u t) u qid with
  | false => rfl
  | true =>
    exfalso
    rw [isUsedBy, usageHas_iff] at hb
    simp only [resetUsage, List.mem_filter] at hb
    have hpred := hb.2
    simp [List.elem_iff.mpr h] at hpred
    exact hpred h

lemma eligible_resetUsage (db : Db) (u : Nat) (t : String) :
    eligibleQuestions (resetUsage db u t) u t =
      db.questions.filter (fun q => q.topic == t) := by
  unfold eligibleQuestions
  rw [resetUsage_questions]
  apply List.filter_congr
  intro q hq
  cases ht : (q.topic == t) with
  | false => simp [ht]
  | true =>
    have hid : q.id ∈ topicIds db t :=
      List.mem_map.mpr ⟨q, List.mem_filter.mpr ⟨hq, ht⟩, rfl⟩
    simp [ht, isUsedBy_resetUsage_of_mem_topicIds hid]

/-- Witness for `falsy_rejection` at concrete bodies: `totalQuestions = 0` and
`topic = ""` are rejected though present; `null` `score`/`correctAnswers` pass. -/
theorem falsy_rejection_witness :
    (postAttempt dbFresh 1 { bodyOk with totalQuestions := JsVal.val 0 } 0).2 =
        Except.error (ApiError.validation "Missing required fields") ∧
    (postAttempt dbFresh 1 { bodyOk with topic := JsVal.val "" } 0).2 =
        Except.error (ApiError.validation "Missing required fields") ∧
    isValidationError (postAttempt dbFresh 1
        { bodyOk with score := JsVal.null, correctAnswers := JsVal.null } 0).2 = false :=
  ⟨(falsy_rejection dbFresh 1 _ 0).1 rfl,
   (falsy_rejection dbFresh 1 _ 0).2.1 rfl,
   (falsy_rejection dbFresh 1 _ 0).2.2 rfl rfl (by decide) (by decide)⟩

/-- Claim C9 counterexample: with the non-numeric `count=abc` the handler does
not return a validation error — `parseInt` yields `NaN`, which reaches the
draw query and surfaces as the generic database error. -/
theorem count_validation_counterexample :
    isValidationError (getQuestions (fun l => l) dbFresh 1 "t" (some "abc")).2 = false ∧
    (getQuestions (fun l => l) dbFresh 1 "t" (some "abc")).2 =
      Except.error ApiError.database :=
  ⟨by decide, by rfl⟩

/-- Claim C9 (amended): a non-numeric `count` is not rejected by validation;
`parseInt` produces `NaN`, the `NaN` limit is bound as SQL `NULL` and the draw
query fails, so the handler answers with the generic database error (after any
exhaustion reset has already run). -/
theorem count_validation_amended (sh : List Question → List Question) (db : Db)
    (u : Nat) (t : String) (s : String) (hs : jsParseInt s = none) :
    (getQuestions sh db u t (some s)).2 = Except.error ApiError.database ∧
    isValidationError (getQuestions sh db u t (some s)).2 = false := by
  have hcl : countLimit (some s) = none := hs
  unfold getQuestions
  rw [hcl]
  exact ⟨rfl, rfl⟩

/-- Witness for `count_validation_amended` at `count=xyz` on the mid-cycle
state. -/
theorem count_validation_amended_witness :
    (getQuestions (fun l => l) dbMid 1 "t" (some "xyz")).2 =
        Except.error ApiError.database ∧
    isValidationError (getQuestions (fun l => l) dbMid 1 "t" (some "xyz")).2 = false :=
  count_validation_amended (fun l => l) dbMid 1 "t" "xyz" (by decide)

/-- Claim C2 counterexample: mid-cycle (one of the two topic-`t` questions
already used by user 1) a request for `count=2` returns one question, not
`min(2, N(topic)) = 2`. -/
theorem result_size_counterexample :
    (getQuestions (fun l => l) dbMid 1 "t" (some "2")).2 = Except.ok [qB] ∧
    totalQuestions dbMid "t" = 2 ∧
    ((getQuestions (fun l => l) dbMid 1 "t" (some "2")).2.toOption.getD []).length ≠
      min 2 (totalQuestions dbMid "t") :=
  ⟨by rfl, by decide, by decide⟩

/-- Claim C2 (amended): with a parsed nonnegative `count = n` the returned list
has size `min n E`, where `E` counts the eligible questions after the possible
reset; `E = N(topic)` whenever the user's cycle for the topic is fresh
(`usedCount = 0`) or exhausted, but mid-cycle only the unused questions are
returned.  The size never exceeds `N(topic)`, over-large requests are capped
with no error and (for distinct catalog ids) no duplicate padding, and an empty
topic yields the empty list with no error. -/
theorem result_size_amended (sh : List Question → List Question)
    (Hsh : ∀ l, (sh l).Perm l) (db : Db) (u : Nat) (t : String) (s : String)
    (n : Nat) (hs : jsParseInt s = some (n : Int)) :
    ∃ sel, (getQuestions sh db u t (some s)).2 = Except.ok sel ∧
      sel.length = min n (eligibleQuestions (afterResetCheck db u t) u t).length ∧
      sel.length ≤ totalQuestions db t ∧
      ((usedCount db u t = 0 ∨ totalQuestions db t ≤ usedCount db u t) →
        sel.length = min n (totalQuestions db t)) ∧
      (totalQuestions db t = 0 → sel = []) ∧
      ((db.questions.map Question.id).Nodup → sel.Nodup) := by
  have hcl : countLimit (some s) = some (n : Int) := hs
  have hsel : (getQuestions sh db u t (some s)).2 =
      Except.ok (sqlLimit (n : Int)
        (sh (eligibleQuestions (afterResetCheck db u t) u t))) := by
    unfold getQuestions
    rw [hcl]
  have hneg : ¬ ((n : Int) < 0) := by omega
  have htake : sqlLimit (n : Int)
        (sh (eligibleQuestions (afterResetCheck db u t) u t)) =
      (sh (eligibleQuestions (afterResetCheck db u t) u t)).take n := by
    unfold sqlLimit
    rw [if_neg hneg, Int.toNat_natCast]
  have hlen : (sqlLimit (n : Int)
        (sh (eligibleQuestions (afterResetCheck db u t) u t))).length =
      min n (eligibleQuestions (afterResetCheck db u t) u t).length := by
    rw [htake, List.length_take, (Hsh _).length_eq]
  have heligle : (eligibleQuestions (afterResetCheck db u t) u t).length ≤
      totalQuestions db t := by
    have h1 := eligible_length_le (afterResetCheck db u t) u t
    rwa [totalQuestions_afterResetCheck] at h1
  refine ⟨_, hsel, hlen, ?_, ?_, ?_, ?_⟩
  · rw [hlen]
    exact le_trans (min_le_right _ _) heligle
  · intro hcase
    have helig : (eligibleQuestions (afterResetCheck db u t) u t).length =
        totalQuestions db t := by
      rcases hcase with h0 | hexh
      · by_cases hres : totalQuestions db t ≤ usedCount db u t
        · have hred : afterResetCheck db u t = resetUsage db u t := by
            unfold afterResetCheck; rw [if_pos hres]
          rw [hred, eligible_resetUsage]
          rfl
        · have hred : afterResetCheck db u t = db := by
            unfold afterResetCheck; rw [if_neg hres]
          rw [hred, eligible_of_usedCount_zero h0]
          rfl
      · have hred : afterResetCheck db u t = resetUsage db u t := by
          unfold afterResetCheck; rw [if_pos hexh]
        rw [hred, eligible_resetUsage]
        rfl
    rw [hlen, helig]
  · intro h0
    apply List.eq_nil_of_length_eq_zero
    have h1 : min n (eligibleQuestions (afterResetCheck db u t) u t).length ≤
        totalQuestions db t := le_trans (min_le_right _ _) heligle
    omega
  · intro hnd
    have hnd1 : ((afterResetCheck db u t).questions.map Question.id).Nodup := by
      rw [afterResetCheck_questions]; exact hnd
    have h2 := eligible_map_id_nodup u t hnd1
    have h3 : (eligibleQuestions (afterResetCheck db u t) u t).Nodup :=
      List.Nodup.of_map Question.id h2
    have h4 : (sh (eligibleQuestions (afterResetCheck db u t) u t)).Nodup :=
      ((Hsh _).nodup_iff).mpr h3
    rw [htake]
    exact (List.take_sublist _ _).nodup h4

/-- Witness for `result_size_amended`: the identity shuffle on the mid-cycle
state with `count=2`. -/
theorem result_size_amended_witness :
    ∃ sel, (getQuestions (fun l => l) dbMid 1 "t" (some "2")).2 = Except.ok sel ∧
      sel.length = min 2 (eligibleQuestions (afterResetCheck dbMid 1 "t") 1 "t").length ∧
      sel.length ≤ totalQuestions dbMid "t" ∧
      ((usedCount dbMid 1 "t" = 0 ∨ totalQuestions dbMid "t" ≤ usedCount dbMid 1 "t") →
        sel.length = min 2 (totalQuestions dbMid "t")) ∧
      (totalQuestions dbMid "t" = 0 → sel = []) ∧
      ((dbMid.questions.map Question.id).Nodup → sel.Nodup) :=
  result_size_amended (fun l => l) (fun l => List.Perm.refl l) dbMid 1 "t" "2" 2
    (by decide)

/-- Claim C5: the exhaustion reset deletes only rows of the requesting user
whose question belongs to the requested topic — rows of other users survive,
rows of the same user whose question is of another topic survive (given
distinct catalog ids), no rows are added, and every deleted row is a row of the
requesting user referencing a topic question. -/
theorem reset_frame_effect (db : Db) (u : Nat) (t : String) :
    (∀ p ∈ db.question_usage, p.1 ≠ u → p ∈ (resetUsage db u t).question_usage) ∧
    ((db.questions.map Question.id).Nodup →
      ∀ p ∈ db.question_usage, ∀ q ∈ db.questions, p.2 = q.id → q.topic ≠ t →
        p ∈ (resetUsage db u t).question_usage) ∧
    (∀ p ∈ (resetUsage db u t).question_usage, p ∈ db.question_usage) ∧
    (∀ p ∈ db.question_usage, p ∉ (resetUsage db u t).question_usage →
      p.1 = u ∧ p.2 ∈ topicIds db t) := by
  refine ⟨?_, ?_, ?_, ?_⟩
  · intro p hp hne
    simp only [resetUsage, List.mem_filter]
    refine ⟨hp, ?_⟩
    simp [hne]
  · intro hnd p hp q hq hid hnt
    simp only [resetUsage, List.mem_filter]
    refine ⟨hp, ?_⟩
    have hnotin : p.2 ∉ topicIds db t := by
      intro hin
      rcases List.mem_map.mp hin with ⟨q', hq', hid'⟩
      have hq'' : q' ∈ db.questions := (List.mem_filter.mp hq').1
      have hqq : q' = q :=
        List.inj_on_of_nodup_map hnd hq'' hq (by rw [hid', ← hid])
      have htq := (List.mem_filter.mp hq').2
      rw [hqq] at htq
      exact hnt (by simpa using htq)
    simp [hnotin]
  · intro p hp
    exact (List.mem_filter.mp hp).1
  · intro p hp hnot
    by_contra hcon
    apply hnot
    simp only [resetUsage, List.mem_filter]
    refine ⟨hp, ?_⟩
    rcases Decidable.em (p.1 = u) with h1 | h1
    · have h2 : p.2 ∉ topicIds db t := fun hmem => hcon ⟨h1, hmem⟩
      simp [h2]
    · simp [h1]

lemma usedCount_eq_length_filter {db : Db} {u : Nat} {t : String}
    (hnd : (db.questions.map Question.id).Nodup) :
    usedCount db u t =
      (db.questions.filter (fun q => q.topic == t && isUsedBy db u q.id)).length := by
  unfold usedCount
  rw [List.Nodup.dedup
    ((List.Sublist.map Question.id (List.filter_sublist _)).nodup hnd)]
  exact List.length_map _ _

lemma exhausted_all_used {db : Db} {u : Nat} {t : String}
    (hnd : (db.questions.map Question.id).Nodup)
    (hex : totalQuestions db t ≤ usedCount db u t) :
    ∀ q ∈ db.questions, q.topic = t → isUsedBy db u q.id = true := by
  intro q hq ht
  have hAB : db.questions.filter (fun q => q.topic == t && isUsedBy db u q.id) =
      (db.questions.filter (fun q => q.topic == t)).filter
        (fun q => isUsedBy db u q.id) := by
    rw [List.filter_filter]
    exact List.filter_congr (fun x _ => Bool.and_comm _ _)
  have hle : ((db.questions.filter (fun q => q.topic == t)).filter
      (fun q => isUsedBy db u q.id)).length ≤ totalQuestions db t :=
    List.length_filter_le _ _
  have hge : totalQuestions db t ≤ ((db.questions.filter (fun q => q.topic == t)).filter
      (fun q => isUsedBy db u q.id)).length := by
    rw [← hAB, ← usedCount_eq_length_filter hnd]
    exact hex
  have heq := List.Sublist.eq_of_length (List.filter_sublist _)
    (le_antisymm hle hge)
  have hall := List.filter_eq_self.mp heq
  exact hall q (List.mem_filter.mpr ⟨hq, by simp [ht]⟩)

lemma length_le_one_of_all_eq {l : List Nat} (hnd : l.Nodup) (a : Nat)
    (h : ∀ x ∈ l, x = a) : l.length ≤ 1 := by
  match l with
  | [] => simp
  | [x] => simp
  | x :: y :: rest =>
    exfalso
    have hx := h x (by simp)
    have hy := h y (by simp)
    have hne : x ≠ y := by
      have hnc := List.nodup_cons.mp hnd
      exact fun hxy => hnc.1 (hxy ▸ List.mem_cons_self _ _)
    exact hne (hx.trans hy.symm)

/-- Claim C3: when the user's usage count for a topic has reached `N(topic)`,
the next single-question draw resets the ledger first and then draws, so it
returns one question that was already seen in the prior cycle, and the user's
usage count for the topic immediately after the draw is exactly `1`. -/
theorem reset_on_exhaustion (sh : List Question → List Question)
    (Hsh : ∀ l, (sh l).Perm l) (db : Db) (u : Nat) (t : String)
    (hnd : (db.questions.map Question.id).Nodup)
    (hpos : 0 < totalQuestions db t)
    (hex : usedCount db u t = totalQuestions db t) :
    ∃ q, (getQuestions sh db u t (some "1")).2 = Except.ok [q] ∧
      isUsedBy db u q.id = true ∧
      usedCount (getQuestions sh db u t (some "1")).1 u t = 1 := by
  have hexle : totalQuestions db t ≤ usedCount db u t := le_of_eq hex.symm
  have hres : afterResetCheck db u t = resetUsage db u t := by
    unfold afterResetCheck
    rw [if_pos hexle]
  have hlenB : 0 < (sh (db.questions.filter (fun q => q.topic == t))).length := by
    rw [(Hsh _).length_eq]
    exact hpos
  obtain ⟨q0, rest, hcons⟩ :=
    List.exists_cons_of_ne_nil (List.length_pos.mp hlenB)
  have hgq : getQuestions sh db u t (some "1") =
      (markUsed (resetUsage db u t) u [q0], Except.ok [q0]) := by
    have hcl : countLimit (some "1") = some 1 := by decide
    unfold getQuestions
    rw [hcl, hres]
    simp only [eligible_resetUsage, hcons, sqlLimit]
    norm_num
  have hq0B : q0 ∈ db.questions.filter (fun q => q.topic == t) :=
    (Hsh _).mem_iff.mp (hcons ▸ List.mem_cons_self q0 rest)
  have hq0mem : q0 ∈ db.questions := (List.mem_filter.mp hq0B).1
  have hq0t : q0.topic = t := by simpa using (List.mem_filter.mp hq0B).2
  have hused : isUsedBy db u q0.id = true :=
    exhausted_all_used hnd hexle q0 hq0mem hq0t
  refine ⟨q0, by rw [hgq], hused, ?_⟩
  rw [hgq]
  have hq' : (markUsed (resetUsage db u t) u [q0]).questions = db.questions := rfl
  have hnd' : ((markUsed (resetUsage db u t) u [q0]).questions.map Question.id).Nodup := by
    rw [hq']
    exact hnd
  rw [usedCount_eq_length_filter hnd']
  have hfilter : (markUsed (resetUsage db u t) u [q0]).questions.filter
        (fun q => q.topic == t && isUsedBy (markUsed (resetUsage db u t) u [q0]) u q.id) =
      db.questions.filter (fun q => q.topic == t && q.id == q0.id) := by
    rw [hq']
    apply List.filter_congr
    intro x hx
    cases ht : (x.topic == t) with
    | false => simp [ht]
    | true =>
      simp only [ht, Bool.true_and]
      have hxid : x.id ∈ topicIds db t :=
        List.mem_map.mpr ⟨x, List.mem_filter.mpr ⟨hx, ht⟩, rfl⟩
      have h1 : isUsedBy (resetUsage db u t) u x.id = false :=
        isUsedBy_resetUsage_of_mem_topicIds hxid
      rw [isUsedBy] at h1
      show usageHas ((resetUsage db u t).question_usage ++ [(u, q0.id)]) u x.id =
        (x.id == q0.id)
      rw [usageHas_append, h1, Bool.false_or, Bool.eq_iff_iff, usageHas_iff]
      simp [List.mem_singleton, Prod.mk.injEq]
  rw [hfilter]
  have hmapnd : ((db.questions.filter
      (fun q => q.topic == t && q.id == q0.id)).map Question.id).Nodup :=
    (List.Sublist.map Question.id (List.filter_sublist _)).nodup hnd
  have halleq : ∀ x ∈ (db.questions.filter
      (fun q => q.topic == t && q.id == q0.id)).map Question.id, x = q0.id := by
    intro x hxm
    rcases List.mem_map.mp hxm with ⟨y, hy, rfl⟩
    have hyp := (List.mem_filter.mp hy).2
    simp only [Bool.and_eq_true, beq_iff_eq] at hyp
    exact hyp.2
  have hle1 : (db.questions.filter
      (fun q => q.topic == t && q.id == q0.id)).length ≤ 1 := by
    have h2 := length_le_one_of_all_eq hmapnd q0.id halleq
    rwa [List.length_map] at h2
  have hge1 : 0 < (db.questions.filter
      (fun q => q.topic == t && q.id == q0.id)).length := by
    apply List.length_pos_of_mem
    show q0 ∈ _
    exact List.mem_filter.mpr ⟨hq0mem, by simp [hq0t]⟩
  omega

/-- Witness for `reset_on_exhaustion`: the identity shuffle on the exhausted
two-question topic. -/
theorem reset_on_exhaustion_witness :
    ∃ q, (getQuestions (fun l => l) dbUsedAll 1 "t" (some "1")).2 = Except.ok [q] ∧
      isUsedBy dbUsedAll 1 q.id = true ∧
      usedCount (getQuestions (fun l => l) dbUsedAll 1 "t" (some "1")).1 1 "t" = 1 :=
  reset_on_exhaustion (fun l => l) (fun l => List.Perm.refl l) dbUsedAll 1 "t"
    (by decide) (by decide) (by decide)

/-- Witness for `reset_frame_effect`: resetting user 1 on topic `t` keeps user
2's row for a topic question and user 1's row for the other-topic question. -/
theorem reset_frame_effect_witness :
    (2, 1) ∈ (resetUsage dbMixed 1 "t").question_usage ∧
    (1, 3) ∈ (resetUsage dbMixed 1 "t").question_usage :=
  ⟨(reset_frame_effect dbMixed 1 "t").1 (2, 1) (by decide) (by decide),
   (reset_frame_effect dbMixed 1 "t").2.1 (by decide) (1, 3) (by decide) qC
     (by decide) rfl (by decide)⟩

lemma getQuestions_usage_nodup (sh : List Question → List Question)
    (Hsh : ∀ l, (sh l).Perm l) (db : Db) (u : Nat) (t : String) (c : Option String)
    (hnd : (db.questions.map Question.id).Nodup)
    (hu : db.question_usage.Nodup) :
    ((getQuestions sh db u t c).1).question_usage.Nodup := by
  have hu1 : (afterResetCheck db u t).question_usage.Nodup := by
    unfold afterResetCheck
    split
    · exact hu.filter _
    · exact hu
  have hq1 : (afterResetCheck db u t).questions = db.questions :=
    afterResetCheck_questions db u t
  unfold getQuestions
  cases hcl : countLimit c with
  | none =>
    exact hu1
  | some n =>
    show ((afterResetCheck db u t).question_usage ++
      (sqlLimit n (sh (eligibleQuestions (afterResetCheck db u t) u t))).map
        (fun q => (u, q.id))).Nodup
    have hsubl : (sqlLimit n (sh (eligibleQuestions (afterResetCheck db u t) u t))).Sublist
        (sh (eligibleQuestions (afterResetCheck db u t) u t)) := by
      unfold sqlLimit
      split
      · exact List.Sublist.refl _
      · exact List.take_sublist _ _
    have helignd : ((eligibleQuestions (afterResetCheck db u t) u t).map Question.id).Nodup :=
      eligible_map_id_nodup u t (by rw [hq1]; exact hnd)
    have hshnd : ((sh (eligibleQuestions (afterResetCheck db u t) u t)).map Question.id).Nodup :=
      ((Hsh _).map Question.id).nodup_iff.mpr helignd
    have hselnd : ((sqlLimit n (sh (eligibleQuestions (afterResetCheck db u t) u t))).map
        Question.id).Nodup := (hsubl.map Question.id).nodup hshnd
    have hselnodup : (sqlLimit n (sh (eligibleQuestions (afterResetCheck db u t) u t))).Nodup :=
      List.Nodup.of_map _ hselnd
    have hpairs : ((sqlLimit n (sh (eligibleQuestions (afterResetCheck db u t) u t))).map
        (fun q => (u, q.id))).Nodup := by
      refine List.Nodup.map_on ?_ hselnodup
      intro x hx y hy hxy
      have hid : x.id = y.id := (Prod.mk.injEq _ _ _ _ ▸ hxy).2
      exact List.inj_on_of_nodup_map hselnd hx hy hid
    refine List.Nodup.append hu1 hpairs ?_
    intro p hp hp2
    rcases List.mem_map.mp hp2 with ⟨q, hq, rfl⟩
    have hqel : q ∈ eligibleQuestions (afterResetCheck db u t) u t :=
      (Hsh _).mem_iff.mp (hsubl.subset hq)
    have hpred := (List.mem_filter.mp hqel).2
    simp only [Bool.and_eq_true, Bool.not_eq_true] at hpred
    have hmu : (u, q.id) ∈ (afterResetCheck db u t).question_usage := hp
    rw [← usageHas_iff] at hmu
    rw [show usageHas (afterResetCheck db u t).question_usage u q.id
        = isUsedBy (afterResetCheck db u t) u q.id from rfl] at hmu
    have h3 := hpred.2
    rw [hmu] at h3
    simp at h3

lemma runRequests_usage_nodup (reqs : List DrawReq) :
    ∀ db : Db, (db.questions.map Question.id).Nodup → db.question_usage.Nodup →
      (∀ r ∈ reqs, ∀ l, (r.sh l).Perm l) →
      (runRequests db reqs).question_usage.Nodup := by
  induction reqs with
  | nil => intro db _ hu _; exact hu
  | cons r rs ih =>
    intro db hnd hu hsh
    unfold runRequests
    apply ih
    · rw [getQuestions_questions]
      exact hnd
    · exact getQuestions_usage_nodup r.sh (hsh r (by simp)) db r.userId r.topic
        r.count hnd hu
    · intro r' hr'
      exact hsh r' (by simp [hr'])

/-- Claim C4: starting from an empty usage ledger, after any sequence of
sequential draw requests (each shuffle a permutation of its input) every
`(userId, questionId)` pair appears at most once in the ledger: a draw marks
only questions that were eligible, i.e. not already in the user's ledger, so
marking never double-inserts. -/
theorem usage_pair_uniqueness (db : Db) (reqs : List DrawReq)
    (hnd : (db.questions.map Question.id).Nodup)
    (h0 : db.question_usage = [])
    (hsh : ∀ r ∈ reqs, ∀ l, (r.sh l).Perm l) :
    (runRequests db reqs).question_usage.Nodup :=
  runRequests_usage_nodup reqs db hnd (h0 ▸ List.nodup_nil) hsh

/-- Witness for `usage_pair_uniqueness`: two identity-shuffle requests on the
fresh three-question state. -/
theorem usage_pair_uniqueness_witness :
    (runRequests dbFresh reqsW).question_usage.Nodup :=
  usage_pair_uniqueness dbFresh reqsW (by decide) rfl
    (by
      intro r hr l
      rcases List.mem_cons.mp hr with h | h
      · rw [h]
      · rcases List.mem_cons.mp h with h2 | h2
        · rw [h2]
        · exact absurd h2 (List.not_mem_nil r))

lemma userAttempts_filter_other (db : Db) (uA uB : Nat) (h : uA ≠ uB) :
    userAttempts
        { db with attempts := db.attempts.filter (fun a => !(a.user_id == uB)) } uA
      = userAttempts db uA := by
  unfold userAttempts
  rw [List.filter_filter]
  apply List.filter_congr
  intro a _
  cases hA : (a.user_id == uA) with
  | false => simp
  | true =>
    have hB : (a.user_id == uB) = false := by
      have haA : a.user_id = uA := by simpa using hA
      simp [haA, h]
    simp [hB]

/-- Claim C8: attempt listings and analytics for user A are computed only from
A's rows — every listed row belongs to A, and deleting every row of a
different user B from the attempt ledger changes neither A's listing nor any
of A's three analytics components (overall, per-topic, recent trend). -/
theorem per_user_scoping (db : Db) (uA uB : Nat) (h : uA ≠ uB) :
    (∀ r ∈ listAttempts db uA, r.user_id = uA) ∧
    listAttempts
        { db with attempts := db.attempts.filter (fun a => !(a.user_id == uB)) } uA
      = listAttempts db uA ∧
    getAnalytics
        { db with attempts := db.attempts.filter (fun a => !(a.user_id == uB)) } uA
      = getAnalytics db uA := by
  have key := userAttempts_filter_other db uA uB h
  refine ⟨?_, ?_, ?_⟩
  · intro r hr
    unfold listAttempts sortByDateDesc at hr
    have h1 : r ∈ userAttempts db uA :=
      (List.perm_insertionSort _ _).mem_iff.mp hr
    simpa using List.of_mem_filter h1
  · unfold listAttempts sortByDateDesc
    rw [key]
  · unfold getAnalytics overallStats perTopic recentTrend listAttempts sortByDateDesc
    rw [key]

/-- Witness for `per_user_scoping`: users 1 and 2 on the two-user attempt
ledger. -/
theorem per_user_scoping_witness :
    (∀ r ∈ listAttempts dbBothUsers 1, r.user_id = 1) ∧
    listAttempts
        { dbBothUsers with
            attempts := dbBothUsers.attempts.filter (fun a => !(a.user_id == 2)) } 1
      = listAttempts dbBothUsers 1 ∧
    getAnalytics
        { dbBothUsers with
            attempts := dbBothUsers.attempts.filter (fun a => !(a.user_id == 2)) } 1
      = getAnalytics dbBothUsers 1 :=
  per_user_scoping dbBothUsers 1 2 (by decide)

lemma contains_iff_mem {l : List Nat} {a : Nat} : l.contains a = true ↔ a ∈ l :=
  List.elem_iff

lemma usedBy_append_pairs {usage0 : List (Nat × Nat)} {ds : List Question}
    {u qid : Nat} (h0 : (u, qid) ∉ usage0) :
    usageHas (usage0 ++ ds.map (fun q => (u, q.id))) u qid =
      (ds.map Question.id).contains qid := by
  rw [usageHas_append, Bool.eq_iff_iff]
  simp only [Bool.or_eq_true]
  constructor
  · rintro (h | h)
    · exact absurd (usageHas_iff.mp h) h0
    · exact contains_iff_mem.mpr (usageHas_pairs_iff.mp h)
  · intro h
    exact Or.inr (usageHas_pairs_iff.mpr (contains_iff_mem.mp h))

lemma filter_topic_and (db : Db) (t : String) (p : Question → Bool) :
    db.questions.filter (fun q => q.topic == t && p q) =
      (db.questions.filter (fun q => q.topic == t)).filter p := by
  rw [List.filter_filter]
  exact List.filter_congr (fun x _ => Bool.and_comm _ _)

lemma length_filter_not_add {α : Type} (p : α → Bool) (l : List α) :
    (l.filter p).length + (l.filter (fun a => !p a)).length = l.length := by
  induction l with
  | nil => rfl
  | cons x xs ih =>
    cases hx : p x <;> simp [List.filter_cons, hx] <;> omega

lemma length_filter_ids {l ds : List Question}
    (hnd : (l.map Question.id).Nodup)
    (hsub : ∀ q ∈ ds, q ∈ l)
    (hds : (ds.map Question.id).Nodup) :
    (l.filter (fun q => (ds.map Question.id).contains q.id)).length = ds.length := by
  have hlnd : l.Nodup := List.Nodup.of_map _ hnd
  have hdsnd : ds.Nodup := List.Nodup.of_map _ hds
  have hperm : (l.filter (fun q => (ds.map Question.id).contains q.id)).Perm ds := by
    rw [List.perm_ext_iff_of_nodup (hlnd.filter _) hdsnd]
    intro x
    constructor
    · intro hx
      have hxl := (List.mem_filter.mp hx).1
      have hxc : x.id ∈ ds.map Question.id :=
        contains_iff_mem.mp (List.mem_filter.mp hx).2
      rcases List.mem_map.mp hxc with ⟨d, hd, hid⟩
      have hxd : d = x := List.inj_on_of_nodup_map hnd (hsub d hd) hxl hid
      exact hxd ▸ hd
    · intro hx
      exact List.mem_filter.mpr
        ⟨hsub x hx, contains_iff_mem.mpr (List.mem_map.mpr ⟨x, hx, rfl⟩)⟩
  exact hperm.length_eq

lemma runDraws_invariant (sh : Nat → List Question → List Question)
    (Hsh : ∀ k l, (sh k l).Perm l) (db : Db) (u : Nat) (t : String)
    (hnd : (db.questions.map Question.id).Nodup)
    (hclean : ∀ qid, (u, qid) ∈ db.question_usage → qid ∉ topicIds db t) :
    ∀ n, n ≤ totalQuestions db t →
      (runDraws sh u t n db).1.questions = db.questions ∧
      (runDraws sh u t n db).1.question_usage =
        db.question_usage ++
          ((runDraws sh u t n db).2.flatten.map (fun q => (u, q.id))) ∧
      (runDraws sh u t n db).2.length = n ∧
      (∀ r ∈ (runDraws sh u t n db).2, r.length = 1) ∧
      (∀ q ∈ (runDraws sh u t n db).2.flatten,
        q ∈ db.questions.filter (fun q' => q'.topic == t)) ∧
      ((runDraws sh u t n db).2.flatten.map Question.id).Nodup ∧
      (runDraws sh u t n db).2.flatten.length = n := by
  intro n
  induction n with
  | zero =>
    intro _
    refine ⟨rfl, by simp [runDraws], rfl, ?_, ?_, ?_, rfl⟩
    · intro r hr
      simp [runDraws] at hr
    · intro q hq'
      simp [runDraws] at hq'
    · simp [runDraws]
  | succ m ih =>
    intro hm1
    have hm : m ≤ totalQuestions db t := Nat.le_of_succ_le hm1
    obtain ⟨hq, husage, hcnt, hlen1, hmem, hndids, hflen⟩ := ih hm
    have hndcat : ((db.questions.filter (fun q => q.topic == t)).map Question.id).Nodup :=
      (List.Sublist.map Question.id (List.filter_sublist _)).nodup hnd
    have fact1 : ∀ q' ∈ db.questions, (q'.topic == t) = true →
        isUsedBy (runDraws sh u t m db).1 u q'.id =
          ((runDraws sh u t m db).2.flatten.map Question.id).contains q'.id := by
      intro q' hq' ht'
      have h0 : (u, q'.id) ∉ db.question_usage := by
        intro hin
        exact hclean q'.id hin
          (List.mem_map.mpr ⟨q', List.mem_filter.mpr ⟨hq', ht'⟩, rfl⟩)
      show usageHas (runDraws sh u t m db).1.question_usage u q'.id = _
      rw [husage]
      exact usedBy_append_pairs h0
    have hndp : ((runDraws sh u t m db).1.questions.map Question.id).Nodup := by
      rw [hq]
      exact hnd
    have hucnt : usedCount (runDraws sh u t m db).1 u t = m := by
      rw [usedCount_eq_length_filter hndp]
      have hcong : (runDraws sh u t m db).1.questions.filter
            (fun q => q.topic == t && isUsedBy (runDraws sh u t m db).1 u q.id) =
          db.questions.filter (fun q => q.topic == t &&
            ((runDraws sh u t m db).2.flatten.map Question.id).contains q.id) := by
        rw [hq]
        apply List.filter_congr
        intro x hx
        cases htx : (x.topic == t) with
        | false => simp [htx]
        | true =>
          simp only [htx, Bool.true_and]
          exact fact1 x hx htx
      rw [hcong, filter_topic_and, length_filter_ids hndcat hmem hndids, hflen]
    have htp : totalQuestions (runDraws sh u t m db).1 t = totalQuestions db t := by
      unfold totalQuestions
      rw [hq]
    have hnores : afterResetCheck (runDraws sh u t m db).1 u t =
        (runDraws sh u t m db).1 := by
      unfold afterResetCheck
      rw [if_neg]
      rw [htp, hucnt]
      omega
    have helig : eligibleQuestions (runDraws sh u t m db).1 u t =
        (db.questions.filter (fun q => q.topic == t)).filter
          (fun q => !(((runDraws sh u t m db).2.flatten.map Question.id).contains q.id)) := by
      show (runDraws sh u t m db).1.questions.filter _ = _
      rw [hq, ← filter_topic_and]
      apply List.filter_congr
      intro x hx
      cases htx : (x.topic == t) with
      | false => simp [htx]
      | true =>
        simp only [htx, Bool.true_and]
        rw [fact1 x hx htx]
    have hcontlen : ((db.questions.filter (fun q => q.topic == t)).filter
        (fun q => ((runDraws sh u t m db).2.flatten.map Question.id).contains q.id)).length
          = m := by
      rw [length_filter_ids hndcat hmem hndids, hflen]
    have heliglen : (eligibleQuestions (runDraws sh u t m db).1 u t).length =
        totalQuestions db t - m := by
      have hsplit := length_filter_not_add
        (fun q => ((runDraws sh u t m db).2.flatten.map Question.id).contains q.id)
        (db.questions.filter (fun q => q.topic == t))
      rw [helig]
      have : (db.questions.filter (fun q => q.topic == t)).length = totalQuestions db t := rfl
      omega
    have hlenpos : 0 < (sh m (eligibleQuestions (runDraws sh u t m db).1 u t)).length := by
      rw [(Hsh m _).length_eq, heliglen]
      omega
    obtain ⟨q0, rest, hcons⟩ :=
      List.exists_cons_of_ne_nil (List.length_pos.mp hlenpos)
    have hgq : getQuestions (sh m) (runDraws sh u t m db).1 u t (some "1") =
        (markUsed (runDraws sh u t m db).1 u [q0], Except.ok [q0]) := by
      have hcl : countLimit (some "1") = some 1 := by decide
      unfold getQuestions
      rw [hcl, hnores]
      simp only [hcons, sqlLimit]
      norm_num
    have hq0elig : q0 ∈ eligibleQuestions (runDraws sh u t m db).1 u t :=
      (Hsh m _).mem_iff.mp (hcons ▸ List.mem_cons_self q0 rest)
    have hq0cat : q0 ∈ db.questions.filter (fun q => q.topic == t) := by
      rw [helig] at hq0elig
      exact (List.mem_filter.mp hq0elig).1
    have hq0new : q0.id ∉ (runDraws sh u t m db).2.flatten.map Question.id := by
      rw [helig] at hq0elig
      have hb := (List.mem_filter.mp hq0elig).2
      simp only [Bool.not_eq_true'] at hb
      intro hmem'
      rw [contains_iff_mem.mpr hmem'] at hb
      exact Bool.noConfusion hb
    have hstep : runDraws sh u t (m + 1) db =
        ((getQuestions (sh m) (runDraws sh u t m db).1 u t (some "1")).1,
          (runDraws sh u t m db).2 ++
            [(getQuestions (sh m) (runDraws sh u t m db).1 u t (some "1")).2.toOption.getD []]) :=
      rfl
    rw [hstep, hgq]
    simp only [Except.toOption, Option.getD]
    refine ⟨?_, ?_, ?_, ?_, ?_, ?_, ?_⟩
    · show (runDraws sh u t m db).1.questions = db.questions
      exact hq
    · show (runDraws sh u t m db).1.question_usage ++ [(u, q0.id)] = _
      rw [husage, List.flatten_append]
      simp [List.append_assoc]
    · simp [hcnt]
    · intro r hr
      rcases List.mem_append.mp hr with h | h
      · exact hlen1 r h
      · rw [List.mem_singleton.mp h]
        rfl
    · intro q hq'
      rw [List.flatten_append] at hq'
      rcases List.mem_append.mp hq' with h | h
      · exact hmem q h
      · have hqq0 : q = q0 := by simpa using h
        subst hqq0
        exact hq0cat
    · rw [List.flatten_append]
      simp only [List.flatten, List.append_nil]
      rw [List.map_append]
      refine List.Nodup.append hndids (by simp) ?_
      intro x hx hx2
      simp only [List.map_cons, List.map_nil, List.mem_singleton] at hx2
      rw [hx2] at hx
      exact hq0new hx
    · rw [List.flatten_append]
      simp [hflen]

/-- Claim C1: for a topic and a user whose usage ledger holds nothing for that
topic, `N(topic)` sequential single-question draws return one question each,
and together the drawn questions are a permutation of the topic's full catalog
— no question repeats and none is omitted before the cycle completes. -/
theorem rotation_completeness (sh : Nat → List Question → List Question)
    (Hsh : ∀ k l, (sh k l).Perm l) (db : Db) (u : Nat) (t : String)
    (hnd : (db.questions.map Question.id).Nodup)
    (hclean : ∀ qid, (u, qid) ∈ db.question_usage → qid ∉ topicIds db t) :
    (runDraws sh u t (totalQuestions db t) db).2.length = totalQuestions db t ∧
    (∀ r ∈ (runDraws sh u t (totalQuestions db t) db).2, r.length = 1) ∧
    ((runDraws sh u t (totalQuestions db t) db).2.flatten).Perm
      (db.questions.filter (fun q => q.topic == t)) := by
  obtain ⟨hq, husage, hcnt, hlen1, hmem, hndids, hflen⟩ :=
    runDraws_invariant sh Hsh db u t hnd hclean (totalQuestions db t) le_rfl
  refine ⟨hcnt, hlen1, ?_⟩
  have hflnd : (runDraws sh u t (totalQuestions db t) db).2.flatten.Nodup :=
    List.Nodup.of_map _ hndids
  have hsubp := hflnd.subperm (fun q hq' => hmem q hq')
  refine hsubp.perm_of_length_le ?_
  rw [hflen]
  exact le_rfl

/-- Witness for `rotation_completeness`: identity shuffles on the fresh state;
both topic-`t` questions are drawn once each across the two draws. -/
theorem rotation_completeness_witness :
    (runDraws (fun _ l => l) 1 "t" (totalQuestions dbFresh "t") dbFresh).2.length =
        totalQuestions dbFresh "t" ∧
    (∀ r ∈ (runDraws (fun _ l => l) 1 "t" (totalQuestions dbFresh "t") dbFresh).2,
        r.length = 1) ∧
    ((runDraws (fun _ l => l) 1 "t" (totalQuestions dbFresh "t") dbFresh).2.flatten).Perm
      (dbFresh.questions.filter (fun q => q.topic == "t")) :=
  rotation_completeness (fun _ l => l) (fun _ l => List.Perm.refl l) dbFresh 1 "t"
    (by decide) (fun qid h => absurd h (List.not_mem_nil _))

end Interview
